import Mathlib

/-!
Verification of the shplitter audio pipeline (src/main.py).

The development embeds the pure logic of `main.py` shallowly:
* `detect_key_and_bpm`'s template-matching key decision becomes `estimateKey`
  over a 12-element rational chroma-mean vector, with `np.roll`, `np.dot`,
  Python `max` and `np.argmax` (first occurrence of the maximum) modelled
  explicitly (`roll`, `dot`, `listMax`, `npArgmax`).
* the output-directory naming `f"{song_title}_{key}_{int(bpm)}"` becomes
  `folderName`, with Python `int()` (truncation toward zero) as `pyInt`.
* `split_audio`'s per-stem guarded persistence loop becomes `splitAudio`
  over an abstract filesystem environment `FsEnv`.
* `main`'s interactive URL loop becomes `mainLoop` over an abstract
  per-URL environment `UrlEnv` recording what the external collaborators
  (yt-dlp, librosa, demucs, the filesystem) return on that URL.
External library calls are parameters of the model; everything written in
`main.py` itself is translated directly.
-/

namespace Shplitter

/-! ## Key estimator (`detect_key_and_bpm`, src/main.py lines 44-68) -/

/-- `major_profile = np.array([1,0,1,0,1,1,0,1,0,1,0,1])` from `main.py`. -/
def majorProfile : List ℚ := [1, 0, 1, 0, 1, 1, 0, 1, 0, 1, 0, 1]

/-- `minor_profile = np.array([1,0,1,1,0,1,0,1,1,0,1,0])` from `main.py`. -/
def minorProfile : List ℚ := [1, 0, 1, 1, 0, 1, 0, 1, 1, 0, 1, 0]

/-- `keys = ["C", "C#", ..., "B"]` from `main.py` (written as the two
half-octaves appended, which is the same list). -/
def keys : List String :=
  ["C", "C#", "D", "D#", "E", "F"] ++ ["F#", "G", "G#", "A", "A#", "B"]

/-- `np.roll(a, i)` on a 12-element vector: `result[j] = a[(j - i) mod 12]`. -/
def roll (a : List ℚ) (i : ℕ) : List ℚ :=
  (List.range 12).map (fun j => a.getD ((j + 12 - i % 12) % 12) 0)

/-- `np.dot` on equal-length vectors: the sum of pairwise products. -/
def dot : List ℚ → List ℚ → ℚ
  | a :: as, b :: bs => a * b + dot as bs
  | _, _ => 0

/-- The 12 major scores:
`[np.dot(np.roll(major_profile, i), chroma_mean) for i in range(12)]`. -/
def majorScores (c : Fin 12 → ℚ) : List ℚ :=
  (List.range 12).map (fun i => dot (roll majorProfile i) (List.ofFn c))

/-- The 12 minor scores:
`[np.dot(np.roll(minor_profile, i), chroma_mean) for i in range(12)]`. -/
def minorScores (c : Fin 12 → ℚ) : List ℚ :=
  (List.range 12).map (fun i => dot (roll minorProfile i) (List.ofFn c))

/-- Python `max` on a list (the score lists are always nonempty, length 12). -/
def listMax : List ℚ → ℚ
  | [] => 0
  | x :: xs => xs.foldl max x

/-- Index of the first occurrence of `a` in `l` (length of `l` if absent). -/
def idxOfQ (a : ℚ) : List ℚ → ℕ
  | [] => 0
  | x :: xs => if x = a then 0 else idxOfQ a xs + 1

/-- `np.argmax`: the index of the first occurrence of the maximum value. -/
def npArgmax (l : List ℚ) : ℕ := idxOfQ (listMax l) l

/-- `best_major = np.argmax(major_scores)` from `main.py`. -/
def bestMajor (c : Fin 12 → ℚ) : ℕ := npArgmax (majorScores c)

/-- `best_minor = np.argmax(minor_scores)` from `main.py`. -/
def bestMinor (c : Fin 12 → ℚ) : ℕ := npArgmax (minorScores c)

/-- The key decision of `detect_key_and_bpm`:
`if max(major_scores) > max(minor_scores): keys[best_major] + " major"
 else: keys[best_minor] + " minor"`. -/
def estimateKey (c : Fin 12 → ℚ) : String :=
  if listMax (majorScores c) > listMax (minorScores c) then
    keys.getD (bestMajor c) "C" ++ " major"
  else
    keys.getD (bestMinor c) "C" ++ " minor"

/-- The 24 possible key labels, `{C,...,B} × {major,minor}`. -/
def allLabels : List String :=
  keys.map (fun k => k ++ " major") ++ keys.map (fun k => k ++ " minor")

/-- A chroma-mean vector scaled pointwise by `s`. -/
def scaleChroma (s : ℚ) (c : Fin 12 → ℚ) : Fin 12 → ℚ := fun j => s * c j

/-- The uniform chroma-mean vector (every pitch class with energy 1). -/
def constOne : Fin 12 → ℚ := fun _ => 1

/-! ## Analysis facade (`detect_key_and_bpm` as a whole) -/

/-- A decoded waveform: samples plus integer sample rate, as returned by
`librosa.load`. -/
abbrev Waveform := List ℚ × ℕ

/-- `detect_key_and_bpm` given the decoded waveform of the input file.
The librosa estimators (`librosa.beat.beat_track`, and
`librosa.feature.chroma_stft` followed by the time average `np.mean`) are
external collaborators, passed in as the functions `beatTrack` and
`chromaMean`; the template-matching decision on the chroma mean is
`estimateKey` above.  Returns the `(key, tempo)` pair of the source. -/
def detectKeyAndBpm (beatTrack : Waveform → ℚ)
    (chromaMean : Waveform → Fin 12 → ℚ) (w : Waveform) : String × ℚ :=
  (estimateKey (chromaMean w), beatTrack w)

/-! ## Output naming (`main`, src/main.py lines 126-131) -/

/-- Python `int()` on a rational: truncation toward zero. -/
def pyInt (q : ℚ) : ℤ := if 0 ≤ q then ⌊q⌋ else ⌈q⌉

/-- The output folder name `f"{song_title}_{key}_{int(bpm)}"` from `main`. -/
def folderName (title key : String) (bpm : ℚ) : String :=
  title ++ "_" ++ key ++ "_" ++ toString (pyInt bpm)

/-! ## Stem persistence (`split_audio`, src/main.py lines 71-100) -/

/-- The filesystem and audio-writing collaborators seen by `split_audio`:
`os.getcwd`, `os.path.dirname`, `os.path.exists`, `os.access(.., os.W_OK)`
and the outcome of `demucs.audio.save_audio` at each target path. -/
structure FsEnv where
  cwd : String
  dirOf : String → String
  dirExists : String → Bool
  dirWritable : String → Bool
  save : String → Except String Unit

/-- The diagnostic context printed when one stem write fails
(src/main.py lines 92-98). -/
structure WriteDiag where
  errMsg : String
  outputFolder : String
  cwd : String
  filePath : String
  parentExists : Bool
  parentWritable : Bool
deriving DecidableEq

/-- `os.path.join(output_folder, f"{source}.wav")`. -/
def stemPath (outputFolder source : String) : String :=
  outputFolder ++ "/" ++ source ++ ".wav"

/-- The diagnostics logged for a failed write of `out` (the five prints in
the `except` branch of `split_audio`). -/
def mkWriteDiag (env : FsEnv) (outputFolder out msg : String) : WriteDiag :=
  ⟨msg, outputFolder, env.cwd, out,
    env.dirExists (env.dirOf out), env.dirWritable (env.dirOf out)⟩

/-- Whether saving stem `source` under `outputFolder` succeeds in `env`. -/
def saveOk (env : FsEnv) (outputFolder source : String) : Bool :=
  match env.save (stemPath outputFolder source) with
  | .ok _ => true
  | .error _ => false

/-- The error message produced when saving stem `source` fails. -/
def saveErr (env : FsEnv) (outputFolder source : String) : String :=
  match env.save (stemPath outputFolder source) with
  | .ok _ => ""
  | .error e => e

/-- The `for source, audio in sources.items()` loop of `split_audio`: each
write is tried, a failure is logged and the loop moves on.  Returns the
stems written and the diagnostics logged, in order. -/
def persistStems (env : FsEnv) (outputFolder : String) :
    List String → List String × List WriteDiag
  | [] => ([], [])
  | source :: rest =>
    let out := stemPath outputFolder source
    let r := persistStems env outputFolder rest
    match env.save out with
    | .ok _ => (source :: r.1, r.2)
    | .error e => (r.1, mkWriteDiag env outputFolder out e :: r.2)

/-- The outcome of `split_audio`: which stems were saved, what was logged,
and whether the final "Audio splitting completed." line was reached. -/
structure SplitResult where
  saved : List String
  diags : List WriteDiag
  completed : Bool
deriving DecidableEq

/-- `split_audio(input_path, output_folder)` after the separator has
returned the stem mapping `sources` (an external collaborator): persist
every stem with a per-stem guard, then report completion. -/
def splitAudio (env : FsEnv) (sources : List String)
    (outputFolder : String) : SplitResult :=
  let r := persistStems env outputFolder sources
  ⟨r.1, r.2, true⟩

/-! ## Interactive loop (`main`, src/main.py lines 103-135) -/

/-- What the external collaborators do for one URL: the path returned by
`download_audio`, whether that path exists on disk, the outcome of
`detect_key_and_bpm` (a `(key, bpm)` pair, or a raised exception), and the
outcome of `split_audio` (unit, or a raised exception). -/
structure UrlEnv where
  downloadedPath : String
  pathExists : Bool
  analysis : Except String (String × ℚ)
  separation : Except String Unit

/-- Observable steps of one pass of the `while True` loop in `main`. -/
inductive Ev where
  | acquired (url : String)
  | downloadFailed
  | analyzed (key : String) (bpm : ℚ)
  | madeOutputDir (dir : String)
  | splitDone (path dir : String)
deriving DecidableEq

/-- How a run of the loop on a finite input script ends: the operator typed
"exit"; an uncaught exception terminated the process; or the script ran out
and the loop is blocked on the next `input()`. -/
inductive LoopOutcome where
  | exited
  | crashed (msg : String)
  | awaitingInput
deriving DecidableEq

/-- The `while True` loop of `main` on a finite list of operator inputs.
Mirrors the source exactly: `break` on inputs whose lowercase form is
"exit"; report and `continue` when the downloaded path does not exist;
no handler around `detect_key_and_bpm` or `split_audio`, so a failure
there propagates and terminates the whole loop (`.crashed`). -/
def mainLoop (env : String → UrlEnv) (titleOf : String → String) :
    List String → List Ev × LoopOutcome
  | [] => ([], .awaitingInput)
  | url :: rest =>
    if url.toLower = "exit" then ([], .exited)
    else
      let e := env url
      if e.pathExists = false then
        let r := mainLoop env titleOf rest
        (.acquired url :: .downloadFailed :: r.1, r.2)
      else
        match e.analysis with
        | .error msg => ([.acquired url], .crashed msg)
        | .ok (key, bpm) =>
          let dir := "outputs/" ++ folderName (titleOf e.downloadedPath) key bpm
          match e.separation with
          | .error msg =>
            ([.acquired url, .analyzed key bpm, .madeOutputDir dir], .crashed msg)
          | .ok _ =>
            let r := mainLoop env titleOf rest
            (.acquired url :: .analyzed key bpm :: .madeOutputDir dir ::
              .splitDone e.downloadedPath dir :: r.1, r.2)

/-! ## Concrete environments used by witnesses and counterexamples -/

/-- A URL environment in which everything succeeds. -/
def envAllOk : String → UrlEnv :=
  fun _ => ⟨"inputs/Track.mp3", true, .ok ("A minor", 954 / 10), .ok ()⟩

/-- A URL environment in which the downloaded file never exists. -/
def envNoFile : String → UrlEnv :=
  fun _ => ⟨"inputs/Track.mp3", false, .ok ("A minor", 954 / 10), .ok ()⟩

/-- A URL environment in which `detect_key_and_bpm` raises. -/
def envDecodeFail : String → UrlEnv :=
  fun _ => ⟨"inputs/Track.mp3", true, .error "decode failed", .ok ()⟩

/-- A URL environment in which `split_audio` raises. -/
def envSepFail : String → UrlEnv :=
  fun _ => ⟨"inputs/Track.mp3", true, .ok ("A minor", 954 / 10),
    .error "CUDA out of memory"⟩

/-- The title extractor `os.path.splitext(os.path.basename(p))[0]`, fixed
to the one concrete track used by witnesses. -/
def titleOfTrack : String → String := fun _ => "Track"

/-- A constant tempo estimator, used by the determinism witness. -/
def btConst : Waveform → ℚ := fun _ => 120

/-- A constant chroma extractor, used by the determinism witness. -/
def cmConst : Waveform → Fin 12 → ℚ := fun _ _ => 1

/-! ## Lemmas on `listMax` (Python `max`) -/

lemma le_foldl_max (xs : List ℚ) : ∀ x : ℚ, x ≤ xs.foldl max x := by
  induction xs with
  | nil => intro x; exact le_refl x
  | cons y ys ih =>
    intro x
    simp only [List.foldl_cons]
    exact le_trans (le_max_left x y) (ih (max x y))

lemma mem_le_foldl_max (xs : List ℚ) :
    ∀ x a : ℚ, a ∈ xs → a ≤ xs.foldl max x := by
  induction xs with
  | nil => intro x a h; cases h
  | cons y ys ih =>
    intro x a h
    simp only [List.foldl_cons]
    rcases List.mem_cons.mp h with rfl | h
    · exact le_trans (le_max_right x a) (le_foldl_max ys (max x a))
    · exact ih (max x y) a h

lemma le_listMax {l : List ℚ} {a : ℚ} (h : a ∈ l) : a ≤ listMax l := by
  cases l with
  | nil => cases h
  | cons x xs =>
    simp only [listMax]
    rcases List.mem_cons.mp h with rfl | h
    · exact le_foldl_max xs a
    · exact mem_le_foldl_max xs x a h

lemma foldl_max_mem (xs : List ℚ) :
    ∀ x : ℚ, xs.foldl max x = x ∨ xs.foldl max x ∈ xs := by
  induction xs with
  | nil => intro x; left; rfl
  | cons y ys ih =>
    intro x
    simp only [List.foldl_cons]
    rcases ih (max x y) with h | h
    · rcases max_cases x y with ⟨he, _⟩ | ⟨he, _⟩
      · left; rw [h, he]
      · right; rw [h, he]; exact List.mem_cons_self y ys
    · right; exact List.mem_cons_of_mem y h

lemma listMax_mem {l : List ℚ} (h : l ≠ []) : listMax l ∈ l := by
  cases l with
  | nil => exact absurd rfl h
  | cons x xs =>
    simp only [listMax]
    rcases foldl_max_mem xs x with h1 | h1
    · rw [h1]; exact List.mem_cons_self x xs
    · exact List.mem_cons_of_mem x h1

/-! ## Lemmas on `idxOfQ` / `npArgmax` (`np.argmax`) -/

lemma idxOfQ_lt_length {a : ℚ} {l : List ℚ} (h : a ∈ l) :
    idxOfQ a l < l.length := by
  induction l with
  | nil => cases h
  | cons x xs ih =>
    simp only [idxOfQ, List.length_cons]
    by_cases hx : x = a
    · rw [if_pos hx]; exact Nat.succ_pos _
    · rw [if_neg hx]
      have hm : a ∈ xs := by
        rcases List.mem_cons.mp h with rfl | h2
        · exact absurd rfl hx
        · exact h2
      exact Nat.succ_lt_succ (ih hm)

lemma getD_idxOfQ {a : ℚ} {l : List ℚ} (h : a ∈ l) (d : ℚ) :
    l.getD (idxOfQ a l) d = a := by
  induction l with
  | nil => cases h
  | cons x xs ih =>
    simp only [idxOfQ]
    by_cases hx : x = a
    · rw [if_pos hx]; simpa using hx
    · rw [if_neg hx]
      have hm : a ∈ xs := by
        rcases List.mem_cons.mp h with rfl | h2
        · exact absurd rfl hx
        · exact h2
      simpa using ih hm

lemma idxOfQ_min {a : ℚ} {l : List ℚ} {j : ℕ} (h : j < idxOfQ a l) (d : ℚ) :
    l.getD j d ≠ a := by
  induction l generalizing j with
  | nil => simp [idxOfQ] at h
  | cons x xs ih =>
    simp only [idxOfQ] at h
    by_cases hx : x = a
    · rw [if_pos hx] at h; exact absurd h (Nat.not_lt_zero j)
    · rw [if_neg hx] at h
      cases j with
      | zero => simpa using hx
      | succ n => simpa using ih (Nat.lt_of_succ_lt_succ h)

/-! ## Scaling lemmas for the invariance of the key decision -/

lemma dot_map_mul (s : ℚ) :
    ∀ a b : List ℚ, dot a (b.map (fun v => s * v)) = s * dot a b := by
  intro a
  induction a with
  | nil => intro b; simp [dot]
  | cons x xs ih =>
    intro b
    cases b with
    | nil => simp [dot]
    | cons y ys =>
      simp only [List.map_cons, dot]
      rw [ih]
      ring

lemma foldl_max_map_mul {s : ℚ} (hs : 0 ≤ s) (xs : List ℚ) :
    ∀ x : ℚ, (xs.map (fun v => s * v)).foldl max (s * x) = s * xs.foldl max x := by
  induction xs with
  | nil => intro x; rfl
  | cons y ys ih =>
    intro x
    simp only [List.map_cons, List.foldl_cons]
    rw [← mul_max_of_nonneg _ _ hs, ih]

lemma listMax_map_mul {s : ℚ} (hs : 0 ≤ s) (l : List ℚ) :
    listMax (l.map (fun v => s * v)) = s * listMax l := by
  cases l with
  | nil => simp [listMax]
  | cons x xs =>
    simp only [List.map_cons, listMax]
    exact foldl_max_map_mul hs xs x

lemma idxOfQ_map_mul {s : ℚ} (hs : s ≠ 0) (a : ℚ) (l : List ℚ) :
    idxOfQ (s * a) (l.map (fun v => s * v)) = idxOfQ a l := by
  induction l with
  | nil => rfl
  | cons x xs ih =>
    simp only [List.map_cons, idxOfQ]
    by_cases hx : x = a
    · rw [if_pos (by rw [hx]), if_pos hx]
    · rw [if_neg (fun hc => hx (mul_left_cancel₀ hs hc)), if_neg hx, ih]

lemma npArgmax_map_mul {s : ℚ} (hs : 0 < s) (l : List ℚ) :
    npArgmax (l.map (fun v => s * v)) = npArgmax l := by
  simp only [npArgmax, listMax_map_mul (le_of_lt hs)]
  exact idxOfQ_map_mul (ne_of_gt hs) _ l

lemma ofFn_scaleChroma (s : ℚ) (c : Fin 12 → ℚ) :
    List.ofFn (scaleChroma s c) = (List.ofFn c).map (fun v => s * v) := by
  rw [List.map_ofFn]
  rfl

lemma majorScores_scale (s : ℚ) (c : Fin 12 → ℚ) :
    majorScores (scaleChroma s c) = (majorScores c).map (fun v => s * v) := by
  simp only [majorScores, ofFn_scaleChroma, List.map_map]
  have he : (fun i => dot (roll majorProfile i) ((List.ofFn c).map (fun v => s * v)))
      = fun i => s * dot (roll majorProfile i) (List.ofFn c) :=
    funext fun i => dot_map_mul s _ _
  rw [he]
  rfl

lemma minorScores_scale (s : ℚ) (c : Fin 12 → ℚ) :
    minorScores (scaleChroma s c) = (minorScores c).map (fun v => s * v) := by
  simp only [minorScores, ofFn_scaleChroma, List.map_map]
  have he : (fun i => dot (roll minorProfile i) ((List.ofFn c).map (fun v => s * v)))
      = fun i => s * dot (roll minorProfile i) (List.ofFn c) :=
    funext fun i => dot_map_mul s _ _
  rw [he]
  rfl

/-! ## Small facts about the score lists and `keys` -/

lemma majorScores_ne_nil (c : Fin 12 → ℚ) : majorScores c ≠ [] := by
  simp [majorScores, List.range_succ]

lemma minorScores_ne_nil (c : Fin 12 → ℚ) : minorScores c ≠ [] := by
  simp [minorScores, List.range_succ]

lemma getD_mem_keys (i : ℕ) : keys.getD i "C" ∈ keys := by
  rcases Nat.lt_or_ge i keys.length with h | h
  · rw [List.getD_eq_getElem keys "C" h]
    exact List.getElem_mem h
  · rw [List.getD_eq_default keys "C" h]
    simp [keys]

lemma getD_range_map (f : ℕ → ℚ) {n i : ℕ} (h : i < n) :
    ((List.range n).map f).getD i 0 = f i := by
  rw [List.getD_eq_getElem _ _ (by simpa using h)]
  simp

/-! ## Claim theorems -/

set_option maxRecDepth 100000 in
set_option maxHeartbeats 1600000 in
/-- C1 counterexample: at the uniform chroma-mean vector the two maxima are
exactly equal, yet `estimate_key` returns "C minor" — a label that does not
end in "major" (it is none of the 12 major labels). -/
theorem C1_counterexample :
    listMax (majorScores constOne) = listMax (minorScores constOne) ∧
    estimateKey constOne = "C minor" ∧
    estimateKey constOne ∉ keys.map (fun k => k ++ " major") := by
  refine ⟨?_, ?_, ?_⟩
  · with_unfolding_all rfl
  · with_unfolding_all rfl
  · with_unfolding_all decide

/-- C1 (amended): when the maximum of the 12 major scores is exactly equal
to the maximum of the 12 minor scores, `estimate_key` returns the minor
label of the best minor rotation — the mode of a tie is minor, because the
source comparison is "strictly greater, else minor". -/
theorem C1_tie_gives_minor (c : Fin 12 → ℚ)
    (h : listMax (majorScores c) = listMax (minorScores c)) :
    estimateKey c = keys.getD (bestMinor c) "C" ++ " minor" := by
  rw [estimateKey, if_neg (by simp [h])]

set_option maxRecDepth 100000 in
set_option maxHeartbeats 1600000 in
/-- Witness for the amended C1 at the uniform chroma-mean vector. -/
theorem C1_tie_gives_minor_witness :
    estimateKey constOne = keys.getD (bestMinor constOne) "C" ++ " minor" :=
  C1_tie_gives_minor constOne (by with_unfolding_all rfl)

set_option maxRecDepth 100000 in
set_option maxHeartbeats 1600000 in
/-- C2: the code has no handler around `detect_key_and_bpm` or
`split_audio`; a failure raised in either stage propagates, the loop dies
(`.crashed`) and the second URL is never prompted for or processed — the
process is terminated by the failure, contradicting the required
containment. -/
theorem C2_uncontained_failures_kill_loop :
    mainLoop envDecodeFail titleOfTrack ["https://a", "https://b"] =
      ([.acquired "https://a"], .crashed "decode failed") ∧
    mainLoop envSepFail titleOfTrack ["https://a", "https://b"] =
      ([.acquired "https://a", .analyzed "A minor" (954 / 10),
        .madeOutputDir "outputs/Track_A minor_95"],
       .crashed "CUDA out of memory") := by
  constructor
  · with_unfolding_all rfl
  · with_unfolding_all rfl

/-- C3: the output directory name is the concatenation, joined by
underscores, of the title, the full key label, and the BPM truncated with
`int()` (floor, for the nonnegative BPM values that arise); at title
"Song", key "D minor", bpm 128.7 it is exactly "Song_D minor_128". -/
theorem C3_folder_name (t k : String) (b : ℚ) (h : 0 ≤ b) :
    folderName t k b = t ++ "_" ++ k ++ "_" ++ toString ⌊b⌋ ∧
    folderName "Song" "D minor" (1287 / 10) = "Song_D minor_128" := by
  constructor
  · simp [folderName, pyInt, h]
  · with_unfolding_all rfl

/-- Witness for C3 at a concrete nonnegative BPM. -/
theorem C3_folder_name_witness :
    folderName "Song" "A minor" (954 / 10 : ℚ) =
      "Song" ++ "_" ++ "A minor" ++ "_" ++ toString ⌊(954 / 10 : ℚ)⌋ :=
  (C3_folder_name "Song" "A minor" (954 / 10) (by norm_num)).1

/-- C4: the key decision is invariant under uniform positive scaling of
the chroma-mean vector: all 24 scores scale by `s`, and both `argmax` and
the major-vs-minor comparison are unchanged. -/
theorem C4_scale_invariant (c : Fin 12 → ℚ) (s : ℚ) (hs : 0 < s) :
    estimateKey (scaleChroma s c) = estimateKey c := by
  have hs0 : (0 : ℚ) ≤ s := le_of_lt hs
  simp only [estimateKey, bestMajor, bestMinor, majorScores_scale,
    minorScores_scale, listMax_map_mul hs0, npArgmax_map_mul hs]
  by_cases h : listMax (majorScores c) > listMax (minorScores c)
  · rw [if_pos ((mul_lt_mul_left hs).mpr h), if_pos h]
  · rw [if_neg (fun hc => h ((mul_lt_mul_left hs).mp hc)), if_neg h]

/-- Witness for C4: doubling the uniform chroma-mean vector does not change
the estimated key. -/
theorem C4_scale_invariant_witness :
    estimateKey (scaleChroma 2 constOne) = estimateKey constOne :=
  C4_scale_invariant constOne 2 (by norm_num)

/-- C5: every stem write is independently guarded: `split_audio` saves
exactly the stems whose write succeeds, logs one diagnostic record (with
working directory, target path, parent existence and parent writability)
for each stem whose write fails, and always reaches the final completion
report. -/
theorem C5_partial_persistence (env : FsEnv) (sources : List String)
    (folder : String) :
    (splitAudio env sources folder).completed = true ∧
    (splitAudio env sources folder).saved =
      sources.filter (fun s => saveOk env folder s) ∧
    (splitAudio env sources folder).diags =
      (sources.filter (fun s => !saveOk env folder s)).map
        (fun s => mkWriteDiag env folder (stemPath folder s)
          (saveErr env folder s)) := by
  refine ⟨rfl, ?_, ?_⟩ <;>
  · induction sources with
    | nil => rfl
    | cons s rest ih =>
      simp only [splitAudio, persistStems, List.filter_cons] at ih ⊢
      cases h : env.save (stemPath folder s) with
      | ok v => simpa [saveOk, h] using ih
      | error e => simpa [saveOk, saveErr, h] using ih

/-- C6: when the downloaded path does not exist, the iteration reports the
failure and the loop continues with the remaining URLs: the events for that
URL are exactly the acquisition and the report, and the final outcome is
that of the rest of the script — no analysis, naming, separation or
persistence happens and the loop is not terminated. -/
theorem C6_missing_file_contained (env : String → UrlEnv)
    (titleOf : String → String) (url : String) (rest : List String)
    (hx : url.toLower ≠ "exit") (hp : (env url).pathExists = false) :
    mainLoop env titleOf (url :: rest) =
      (.acquired url :: .downloadFailed :: (mainLoop env titleOf rest).1,
        (mainLoop env titleOf rest).2) := by
  simp [mainLoop, if_neg hx, hp]

set_option maxRecDepth 100000 in
set_option maxHeartbeats 1600000 in
/-- Witness for C6: a bad URL followed by "exit" yields exactly the report
events and a normal exit. -/
theorem C6_missing_file_contained_witness :
    mainLoop envNoFile titleOfTrack ["https://bad", "exit"] =
      ([.acquired "https://bad", .downloadFailed], .exited) := by
  rw [C6_missing_file_contained envNoFile titleOfTrack "https://bad" ["exit"]
    (by with_unfolding_all decide) rfl]
  with_unfolding_all rfl

/-- C7: the estimator's score lists are exactly the dot products of the
chroma mean with the 12 cyclic rotations of the binary major and minor
templates, and the returned label is always one of the 24 labels
`{C,...,B} × {major,minor}`. -/
theorem C7_template_matching (c : Fin 12 → ℚ) :
    (∀ i : Fin 12,
      (majorScores c).getD (i : ℕ) 0 = dot (roll majorProfile i) (List.ofFn c) ∧
      (minorScores c).getD (i : ℕ) 0 = dot (roll minorProfile i) (List.ofFn c)) ∧
    estimateKey c ∈ allLabels ∧ allLabels.length = 24 := by
  refine ⟨fun i => ⟨?_, ?_⟩, ?_, rfl⟩
  · exact getD_range_map _ i.isLt
  · exact getD_range_map _ i.isLt
  · rw [estimateKey, allLabels]
    split
    · exact List.mem_append_left _ (List.mem_map_of_mem _ (getD_mem_keys _))
    · exact List.mem_append_right _ (List.mem_map_of_mem _ (getD_mem_keys _))

/-- C8: an input whose lowercase form is "exit" terminates the loop at once
with no acquisition attempted; any other input is processed as a URL (its
acquisition is the first recorded event of the iteration). -/
theorem C8_exit_token (env : String → UrlEnv) (titleOf : String → String)
    (url : String) (rest : List String) :
    (url.toLower = "exit" → mainLoop env titleOf (url :: rest) = ([], .exited)) ∧
    (url.toLower ≠ "exit" →
      (mainLoop env titleOf (url :: rest)).1.head? = some (.acquired url)) := by
  constructor
  · intro h
    simp [mainLoop, h]
  · intro h
    simp only [mainLoop, if_neg h]
    cases hp : (env url).pathExists with
    | false => simp [hp]
    | true =>
      cases ha : (env url).analysis with
      | error m => simp [hp, ha]
      | ok kv =>
        obtain ⟨k, b⟩ := kv
        cases hs : (env url).separation with
        | error m => simp [hp, ha, hs]
        | ok u => simp [hp, ha, hs]

set_option maxRecDepth 100000 in
set_option maxHeartbeats 1600000 in
/-- Witness for C8: "EXIT" exits with no events; a URL is acquired first. -/
theorem C8_exit_token_witness :
    mainLoop envAllOk titleOfTrack ["EXIT"] = ([], .exited) ∧
    (mainLoop envAllOk titleOfTrack ["https://yt"]).1.head? =
      some (.acquired "https://yt") :=
  ⟨(C8_exit_token envAllOk titleOfTrack "EXIT" []).1 (by with_unfolding_all decide),
    (C8_exit_token envAllOk titleOfTrack "https://yt" []).2
      (by with_unfolding_all decide)⟩

/-- C9: the analysis stage is deterministic — on equal input waveforms it
produces equal `(key, bpm)` pairs (the whole stage is a pure function of
the decoded samples and sample rate). -/
theorem C9_deterministic (bt : Waveform → ℚ) (cm : Waveform → Fin 12 → ℚ)
    (w₁ w₂ : Waveform) (h : w₁ = w₂) :
    detectKeyAndBpm bt cm w₁ = detectKeyAndBpm bt cm w₂ := by
  rw [h]

/-- Witness for C9 at a concrete waveform. -/
theorem C9_deterministic_witness :
    detectKeyAndBpm btConst cmConst ([0], 22050) =
      detectKeyAndBpm btConst cmConst ([0], 22050) :=
  C9_deterministic btConst cmConst ([0], 22050) ([0], 22050) rfl

/-- C10: within each mode, `np.argmax` picks the first index attaining the
maximal score: the chosen rotation attains the maximum, and any rotation
index attaining the maximum is at least the chosen one (the chosen root is
the earliest in the list C, C#, ..., B). -/
theorem C10_lowest_index_wins (c : Fin 12 → ℚ) (j : Fin 12) :
    ((majorScores c).getD (bestMajor c) 0 = listMax (majorScores c) ∧
      ((majorScores c).getD (j : ℕ) 0 = listMax (majorScores c) →
        bestMajor c ≤ (j : ℕ))) ∧
    ((minorScores c).getD (bestMinor c) 0 = listMax (minorScores c) ∧
      ((minorScores c).getD (j : ℕ) 0 = listMax (minorScores c) →
        bestMinor c ≤ (j : ℕ))) := by
  refine ⟨⟨?_, ?_⟩, ⟨?_, ?_⟩⟩
  · exact getD_idxOfQ (listMax_mem (majorScores_ne_nil c)) 0
  · intro h
    by_contra hlt
    push_neg at hlt
    exact idxOfQ_min hlt 0 h
  · exact getD_idxOfQ (listMax_mem (minorScores_ne_nil c)) 0
  · intro h
    by_contra hlt
    push_neg at hlt
    exact idxOfQ_min hlt 0 h

set_option maxRecDepth 100000 in
set_option maxHeartbeats 1600000 in
/-- Witness for C10 at the uniform chroma-mean vector, where all 12 scores
of each mode tie: the chosen index is 0, which attains the maximum and is
at most the tying index 3. -/
theorem C10_lowest_index_wins_witness :
    (majorScores constOne).getD (bestMajor constOne) 0 =
      listMax (majorScores constOne) ∧
    bestMajor constOne ≤ 3 ∧ bestMinor constOne ≤ 3 :=
  ⟨(C10_lowest_index_wins constOne 3).1.1,
    (C10_lowest_index_wins constOne 3).1.2 (by with_unfolding_all rfl),
    (C10_lowest_index_wins constOne 3).2.2 (by with_unfolding_all rfl)⟩

end Shplitter
